import Mathlib

/-!
Verification of the card identity resolution and deal scoring pipeline.

This file gives a shallow embedding, in Lean 4, of the price resolution and
deal scoring code of the cardsnipe backend:

* `src/services/sportscardpro.js` (the `SportsCardProClient.getMarketValue`
  revision at lines 619-878, together with its candidate matching and
  grade-to-price-column selection logic), and
* `src/services/pricing.js` (the `PriceService` revision at lines 13-99:
  resolution cache and `calculateDealScore`).

JavaScript strings are modelled as `String`, nullable values as `Option`,
JavaScript numbers as `Int` or `Rat` (the arithmetic used by the claims is
exact over the rationals), and the external collaborators (PSA certificate
lookup, catalog search API) as explicit environment values.  The two
regex-based text parsers (`parseTitle` and `parseSCPProduct`) are passed to
the pipeline as explicit function parameters: every theorem about the
pipeline is proved for all possible parser results, so the theorems hold in
particular for the concrete parsers of the source.
-/

/-! ### JavaScript string helpers -/

/-- Lowercase a string character by character, as `String.prototype.toLowerCase`
does for ASCII input. -/
def lowerStr (s : String) : String := ⟨s.data.map Char.toLower⟩

/-- Uppercase a string character by character, as `String.prototype.toUpperCase`
does for ASCII input. -/
def upperStr (s : String) : String := ⟨s.data.map Char.toUpper⟩

/-- Trim whitespace from both ends, as `String.prototype.trim`. -/
def trimStr (s : String) : String :=
  ⟨((s.data.dropWhile Char.isWhitespace).reverse.dropWhile Char.isWhitespace).reverse⟩

/-- Does `sub` occur as a contiguous run of characters of the second list?
Executable model of `String.prototype.includes` on the character level. -/
def charsIncludes (sub : List Char) : List Char → Bool
  | [] => sub.isEmpty
  | c :: t => sub.isPrefixOf (c :: t) || charsIncludes sub t

/-- JavaScript `s.includes(sub)`. -/
def strIncludes (s sub : String) : Bool := charsIncludes sub.data s.data

/-- JavaScript `s.endsWith(t)`. -/
def strEndsWith (s t : String) : Bool := t.data.reverse.isPrefixOf s.data.reverse

/-- Remove a trailing occurrence of `t` from `s`, the effect of the
JavaScript `s.replace(/t$/, "")` for a literal anchored pattern `t`. -/
def stripSuffixStr (s t : String) : String :=
  if strEndsWith s t = true then ⟨s.data.take (s.data.length - t.data.length)⟩ else s

/-- JavaScript truthiness of a nullable string: `null`, `undefined` and the
empty string are falsy. -/
def jsTruthyStr : Option String → Bool
  | none => false
  | some s => !(s == "")

/-- JavaScript `x || ""` for a nullable string `x`. -/
def jsOrEmpty : Option String → String
  | none => ""
  | some s => s

/-- Template-literal interpolation of a possibly-undefined string, as in
JavaScript backtick strings: an absent value prints as "undefined". -/
def jsUndef : Option String → String
  | none => "undefined"
  | some s => s

/-- JavaScript `String(x)` applied to a nullable string: `String(null)` is
the string "null". -/
def jsStringO : Option String → String
  | none => "null"
  | some s => s

/-! ### JavaScript number helpers -/

/-- JavaScript truthiness of a nullable number: `null`, `undefined` and `0`
are falsy. -/
def jsTruthyInt : Option Int → Bool
  | none => false
  | some v => !(v == 0)

/-- JavaScript `a || b` on nullable numbers. -/
def jsOrInt (a b : Option Int) : Option Int := if jsTruthyInt a = true then a else b

/-- Value of a nonempty list of decimal digit characters. -/
def digitsVal (cs : List Char) : Nat :=
  cs.foldl (fun a c => a * 10 + (c.toNat - 48)) 0

/-- `parseInt(s, 10)`: skip leading whitespace, read an optional sign, then
the longest prefix of decimal digits; `none` models `NaN` (no digits). -/
def parseIntJS (s : String) : Option Int :=
  let cs := s.data.dropWhile Char.isWhitespace
  match cs with
  | '-' :: rest =>
    let ds := rest.takeWhile Char.isDigit
    if ds.isEmpty = true then none else some (-(digitsVal ds : Int))
  | '+' :: rest =>
    let ds := rest.takeWhile Char.isDigit
    if ds.isEmpty = true then none else some (digitsVal ds : Int)
  | _ =>
    let ds := cs.takeWhile Char.isDigit
    if ds.isEmpty = true then none else some (digitsVal ds : Int)

/-- `parseInt` applied to a nullable string; `parseInt(null)` and
`parseInt(undefined)` are `NaN`. -/
def parseIntO : Option String → Option Int
  | none => none
  | some s => parseIntJS s

/-- NaN-propagating subtraction on JavaScript numbers. -/
def jsSubO : Option Int → Option Int → Option Int
  | some a, some b => some (a - b)
  | _, _ => none

/-- NaN-propagating `Math.abs`. -/
def jsAbsO : Option Int → Option Int
  | none => none
  | some a => some |a|

/-- JavaScript `x <= b`: any comparison with `NaN` is false. -/
def jsLeO : Option Int → Int → Bool
  | none, _ => false
  | some a, b => a ≤ b

/-- JavaScript `Math.round`: round half toward positive infinity. -/
def jsRound (q : ℚ) : ℤ := ⌊q + 1/2⌋

/-- JavaScript truthiness of a nullable rational: `null`, `undefined` and
`0` are falsy. -/
def jsTruthyQ : Option ℚ → Bool
  | none => false
  | some c => !(c == 0)

/-! ### sportscardpro.js: parallel matching (lines 755-792)

The candidate matcher of `SportsCardProClient.getMarketValue` normalizes
both parallel names and then applies a strict matching rule. -/

/-- The `normalizeParallel` arrow function of `getMarketValue` (lines
757-763): lowercase, strip a trailing " prizm", strip a trailing
" refractor", then trim; a null parallel normalizes to the empty string. -/
def normalizeParallel : Option String → String
  | none => ""
  | some p => trimStr (stripSuffixStr (stripSuffixStr (lowerStr p) " prizm") " refractor")

/-- The `simpleColors` list of `getMarketValue` (line 766). -/
def simpleColors : List String :=
  ["silver", "gold", "blue", "red", "green", "orange", "purple", "pink",
   "black", "white", "bronze", "yellow"]

/-- The parallel match decision of lines 775-792, as a function of the two
already-normalized names (`searchParNorm` and `scpParNorm` in the source). -/
def coreParallelMatch (sN cN : String) : Bool :=
  if sN = "" ∧ cN = "" then true        -- both are base cards
  else if sN = "" ∨ cN = "" then false  -- one base, one parallel
  else if sN = cN then true             -- exact match after normalization
  else if simpleColors.contains sN = true ∧ strEndsWith cN sN = true then
    simpleColors.contains cN || cN == sN
  else if simpleColors.contains cN = true ∧ strEndsWith sN cN = true then
    simpleColors.contains sN || sN == cN
  else false                            -- complex parallels must match exactly

/-- The complete parallel match predicate applied to the raw (nullable)
parallel strings of the search side and the catalog side. -/
def parallelMatch (a b : Option String) : Bool :=
  coreParallelMatch (normalizeParallel a) (normalizeParallel b)

/-! ### sportscardpro.js: the other per-field match predicates (lines 747-796) -/

/-- Year match (lines 749-752): `parseInt` both sides in base 10; match when
neither is `NaN` and the absolute difference is at most 1. -/
def yearMatchB (sy cy : Option String) : Bool :=
  let a := parseIntO sy
  let b := parseIntO cy
  a.isSome && b.isSome && jsLeO (jsAbsO (jsSubO a b)) 1

/-- Insert-line match (line 796): vacuously true when the search side has no
insert line, otherwise case-insensitive equality with the catalog side
(`scpData.insertSet || ""`). -/
def insertMatchB : Option String → Option String → Bool
  | none, _ => true
  | some s, ci => if s = "" then true else lowerStr s == lowerStr (jsOrEmpty ci)

/-- The structured data `parseSCPProduct` extracts from a catalog product
(lines 342-416): all fields nullable except the autograph flag. -/
structure SCPData where
  year : Option String
  set : Option String
  insertSet : Option String
  cardNumber : Option String
  parallel : Option String
  isAuto : Bool
deriving DecidableEq

/-- The full candidate acceptance test of lines 747-798: card number, year,
set, parallel, autograph flag and insert line must all pass.  The first
three search-side fields are plain strings because `getMarketValue` checks
them for truthiness before the loop runs. -/
def candidateMatch (sYear sSet sNumber : String) (sParallel : Option String)
    (sIsAuto : Bool) (sInsert : Option String) (c : SCPData) : Bool :=
  let cardM := sNumber == jsStringO c.cardNumber
  let yearM := yearMatchB (some sYear) c.year
  let setM := lowerStr sSet == lowerStr (jsOrEmpty c.set)
  let parM := parallelMatch sParallel c.parallel
  let autoM := sIsAuto == c.isAuto
  let insM := insertMatchB sInsert c.insertSet
  cardM && yearM && setM && parM && autoM && insM

/-! ### sportscardpro.js: price selection by grade (lines 822-854) -/

/-- One catalog product row as returned by the search API, with its price
columns in pennies (`graded-price`, `manual-only-price`, `bgs-10-price`,
`new-price`, `loose-price`); absent columns are `none`. -/
structure RawProduct where
  productName : Option String
  consoleName : Option String
  gradedPrice : Option Int
  manualOnlyPrice : Option Int
  bgs10Price : Option Int
  newPrice : Option Int
  loosePrice : Option Int
deriving DecidableEq

/-- The grade-driven column selection of lines 823-842, before the loose
fallback: returns the pair `(priceInPennies, priceKey)`.  The branches run
in source order: the 9-family is tested before the 10-family, which is
tested before the 8-family; for the 10-family the price is
`manual-only-price || bgs-10-price`. -/
def gradePriceSelect (g : Option String) (p : RawProduct) : Option Int × String :=
  match g with
  | none => (none, "loose-price")
  | some s =>
    if s = "" then (none, "loose-price")
    else
      let gu := upperStr s
      if strIncludes gu "PSA 9" = true ∨ strIncludes gu "BGS 9" = true ∨
          strIncludes gu "BGS 9.5" = true then
        (p.gradedPrice, "graded-price")
      else if strIncludes gu "PSA 10" = true ∨ strIncludes gu "BGS 10" = true ∨
          (strIncludes gu "GEM" = true ∧ strIncludes gu "10" = true) then
        (jsOrInt p.manualOnlyPrice p.bgs10Price, "manual-only-price")
      else if strIncludes gu "PSA 8" = true ∨ strIncludes gu "BGS 8" = true then
        (p.newPrice, "new-price")
      else (none, "loose-price")

/-- Lines 844-854: fall back to the loose price when the selected column is
falsy, then fail (return `none`, the no-price-data outcome) unless the
final price is positive. -/
def scpPriceOf (g : Option String) (p : RawProduct) : Option (Int × String) :=
  let sel := gradePriceSelect g p
  let sel2 := if jsTruthyInt sel.1 = true then sel else (p.loosePrice, "loose-price")
  match sel2.1 with
  | none => none
  | some v => if v ≤ 0 then none else some (v, sel2.2)

/-! ### sportscardpro.js: the getMarketValue pipeline (lines 619-878) -/

/-- The `PSACert` payload of a successful `psa.getCertInfo` call
(fields read at lines 636-653). -/
structure PSACert where
  year : Option String
  brand : Option String
  cardNumber : Option String
  subject : Option String
  cardGrade : Option String
  variety : Option String
  category : Option String
deriving DecidableEq

/-- The argument object of `getMarketValue` (line 619).  `imageUrl` is
destructured by the source but never used by this revision. -/
structure SCPInput where
  player : Option String
  year : Option String
  set : Option String
  grade : Option String
  cardNumber : Option String
  parallel : Option String
  imageUrl : Option String
  sport : Option String
  certNumber : Option String
deriving DecidableEq

/-- The external world the pipeline interacts with: whether PSA credentials
are configured, the outcome of a PSA certificate lookup (`none` models both
a thrown error and a response without `PSACert`), and the outcome of a
catalog search for a given query (`none` models a thrown error). -/
structure SCPEnv where
  hasPSACredentials : Bool
  psaResp : Option PSACert
  searchOutcome : String → Option (List RawProduct)

/-- The record returned by `parseTitle` (line 612). -/
structure ParsedTitle where
  year : Option String
  set : Option String
  cardNumber : Option String
  player : Option String
  parallel : Option String
  isAuto : Bool
  insertSet : Option String
deriving DecidableEq

/-- The mutable search variables of `getMarketValue` (lines 620-628). -/
structure SearchState where
  year : Option String
  set : Option String
  number : Option String
  player : Option String
  grade : Option String
  parallel : Option String
  isAuto : Bool
  insertSet : Option String
deriving DecidableEq

/-- Lines 620-683 of `getMarketValue`: initialize the search variables from
the input, override them from the PSA certificate lookup when a certificate
number and credentials are present (the lookup runs BEFORE the
required-field checks), extract a grade from the title when none is known,
and fill remaining fields from a long title via `parseTitle` (passed in as
the function parameter `pT`). -/
def scpEnrich (pT : String → ParsedTitle) (inp : SCPInput) (env : SCPEnv) : SearchState :=
  let s0 : SearchState :=
    { year := inp.year, set := inp.set, number := inp.cardNumber, player := inp.player,
      grade := inp.grade,
      parallel := if jsTruthyStr inp.parallel = true then inp.parallel else none,
      isAuto := false, insertSet := none }
  -- PRIORITY: PSA cert lookup (lines 630-659)
  let s1 :=
    if jsTruthyStr inp.certNumber && env.hasPSACredentials then
      match env.psaResp with
      | some cert =>
        { year := if jsTruthyStr cert.year = true then cert.year else s0.year,
          set := if jsTruthyStr cert.brand = true then cert.brand else s0.set,
          number := if jsTruthyStr cert.cardNumber = true then cert.cardNumber else s0.number,
          player := if jsTruthyStr cert.subject = true then cert.subject else s0.player,
          grade := if jsTruthyStr cert.cardGrade = true then
              some ("PSA " ++ jsOrEmpty cert.cardGrade) else s0.grade,
          parallel := if jsTruthyStr cert.variety = true then
              some (lowerStr (jsOrEmpty cert.variety)) else s0.parallel,
          isAuto := if jsTruthyStr cert.category = true &&
              strIncludes (lowerStr (jsOrEmpty cert.category)) "auto" then true else s0.isAuto,
          insertSet := s0.insertSet }
      | none => s0
    else s0
  -- grade from title when not provided (lines 662-673)
  let s2 :=
    if !(jsTruthyStr s1.grade) && jsTruthyStr inp.player then
      let tu := upperStr (jsOrEmpty inp.player)
      if strIncludes tu "PSA 10" || strIncludes tu "GEM MINT" then
        { s1 with grade := some "PSA 10" }
      else if strIncludes tu "PSA 9" = true then { s1 with grade := some "PSA 9" }
      else if strIncludes tu "BGS 10" = true then { s1 with grade := some "BGS 10" }
      else if strIncludes tu "BGS 9" = true then { s1 with grade := some "BGS 9" }
      else s1
    else s1
  -- title parsing fallback for long titles (lines 676-683)
  if jsTruthyStr inp.player && decide ((jsOrEmpty inp.player).length > 30) then
    let parsed := pT (jsOrEmpty inp.player)
    { year := if !(jsTruthyStr s2.year) && jsTruthyStr parsed.year then parsed.year else s2.year,
      set := if !(jsTruthyStr s2.set) && jsTruthyStr parsed.set then parsed.set else s2.set,
      number := s2.number,
      player := if jsTruthyStr parsed.player = true then parsed.player else s2.player,
      grade := s2.grade,
      parallel := s2.parallel,
      isAuto := s2.isAuto || parsed.isAuto,
      insertSet := if jsTruthyStr parsed.insertSet = true then parsed.insertSet else s2.insertSet }
  else s2

/-- The hardcoded player list of lines 686-687. -/
def knownPlayers : List String :=
  ["LeBron James", "Victor Wembanyama", "Luka Doncic", "Anthony Edwards",
   "Stephen Curry", "Shohei Ohtani", "Mike Trout", "Julio Rodriguez",
   "Gunnar Henderson", "Juan Soto"]

/-- Lines 688-694: replace the search player by the first known player
contained in the original (raw) player string, if any. -/
def cleanPlayerLoop (origPlayer searchPlayer : Option String) : List String → Option String
  | [] => searchPlayer
  | p :: rest =>
    if jsTruthyStr origPlayer && strIncludes (lowerStr (jsOrEmpty origPlayer)) (lowerStr p) then
      some p
    else cleanPlayerLoop origPlayer searchPlayer rest

/-- The candidate scan of lines 733-815 restricted to the first
`min(products.length, 5)` results (the caller passes `products.take 5`):
skip Funko products, parse each product with the catalog-side parser `pS`
(the `parseSCPProduct` of the source), and return the first product passing
`candidateMatch`. -/
def findCandidate (pS : String → String → SCPData) (sYear sSet sNumber : String)
    (sParallel : Option String) (sIsAuto : Bool) (sInsert : Option String) :
    List RawProduct → Option RawProduct
  | [] => none
  | p :: rest =>
    let productName := jsOrEmpty p.productName
    let consoleName := jsOrEmpty p.consoleName
    if strIncludes (lowerStr consoleName) "funko" = true then
      findCandidate pS sYear sSet sNumber sParallel sIsAuto sInsert rest
    else
      let scp := pS consoleName productName
      if candidateMatch sYear sSet sNumber sParallel sIsAuto sInsert scp = true then some p
      else findCandidate pS sYear sSet sNumber sParallel sIsAuto sInsert rest

/-- The successful return value of `getMarketValue` (lines 865-873),
restricted to the fields the claims mention: the market value in dollars
(pennies divided by 100) and the price column it came from. -/
structure MVResult where
  marketValue : ℚ
  priceType : String
  source : String
deriving DecidableEq

/-- The complete `getMarketValue` of lines 619-878, returning the result
together with two call-tracking booleans: whether the PSA certificate
authority was called and whether the catalog search API was called.
`pT` and `pS` are the two text parsers (`parseTitle`, `parseSCPProduct`). -/
def scpGetMarketValue (pT : String → ParsedTitle) (pS : String → String → SCPData)
    (inp : SCPInput) (env : SCPEnv) : Option MVResult × Bool × Bool :=
  let psaCalled := jsTruthyStr inp.certNumber && env.hasPSACredentials
  let st := scpEnrich pT inp env
  -- REQUIRED-field checks (lines 696-708): card number, year, set
  if !(jsTruthyStr st.number) then (none, psaCalled, false)
  else if !(jsTruthyStr st.year) then (none, psaCalled, false)
  else if !(jsTruthyStr st.set) then (none, psaCalled, false)
  else
    let cleanPlayer := cleanPlayerLoop inp.player st.player knownPlayers
    -- query construction (lines 712-720)
    let queryParts :=
      (if jsTruthyStr st.year = true then [jsOrEmpty st.year] else []) ++
      (if jsTruthyStr st.set = true then [jsOrEmpty st.set] else []) ++
      (if jsTruthyStr st.insertSet = true then [jsOrEmpty st.insertSet] else []) ++
      (if jsTruthyStr cleanPlayer = true then [jsOrEmpty cleanPlayer] else []) ++
      (if jsTruthyStr st.number = true then ["#" ++ jsOrEmpty st.number] else []) ++
      (if jsTruthyStr st.parallel = true then [jsOrEmpty st.parallel] else [])
    let query := trimStr (String.intercalate " " queryParts)
    -- the catalog search call (line 725); an exception is caught and
    -- converted to a null result (lines 874-877)
    match env.searchOutcome query with
    | none => (none, psaCalled, true)
    | some products =>
      if products.isEmpty = true then (none, psaCalled, true)
      else
        match findCandidate pS (jsOrEmpty st.year) (jsOrEmpty st.set) (jsOrEmpty st.number)
            st.parallel st.isAuto st.insertSet (products.take 5) with
        | none => (none, psaCalled, true)
        | some p =>
          match scpPriceOf st.grade p with
          | none => (none, psaCalled, true)
          | some (v, key) => (some ⟨(v : ℚ) / 100, key, "sportscardpro"⟩, psaCalled, true)

/-! ### pricing.js: the PriceService resolution cache (lines 13-64) -/

/-- The cache TTL of line 16, in milliseconds: one hour. -/
def cacheTTL : Int := 60 * 60 * 1000

/-- A cached resolution: the data object plus the confidence property that
line 40 attaches to it when the market value is truthy. -/
structure PriceData where
  res : MVResult
  confidence : Option String
deriving DecidableEq

/-- One entry of the cache `Map` (line 61): the data and the write time. -/
structure CacheEntry where
  data : PriceData
  timestamp : Int
deriving DecidableEq

/-- `Map.get`: first binding of the key, if any. -/
def mapGet : List (String × CacheEntry) → String → Option CacheEntry
  | [], _ => none
  | (k, v) :: rest, key => if k = key then some v else mapGet rest key

/-- `Map.set`: replace the binding of the key, or append a new one. -/
def mapSet : List (String × CacheEntry) → String → CacheEntry → List (String × CacheEntry)
  | [], key, v => [(key, v)]
  | (k, w) :: rest, key, v =>
    if k = key then (key, v) :: rest else (k, w) :: mapSet rest key v

/-- The cache key of line 25: the colon-joined identity and grade tuple,
lowercased.  `certNumber`, `cardNumber`, `parallel` and `sport` appear as
`x || ""`; the other fields are interpolated directly. -/
def cacheKey (inp : SCPInput) : String :=
  lowerStr (jsOrEmpty inp.certNumber ++ ":" ++ jsUndef inp.player ++ ":" ++
    jsUndef inp.year ++ ":" ++ jsUndef inp.set ++ ":" ++ jsUndef inp.grade ++ ":" ++
    jsOrEmpty inp.cardNumber ++ ":" ++ jsOrEmpty inp.parallel ++ ":" ++
    jsOrEmpty inp.sport)

/-- The result of one `PriceService.getMarketValue` call: either the
"unknown" object of lines 50-58 (which is NOT cached) or a data result. -/
inductive PriceOut
  | unknown
  | data (d : PriceData)
deriving DecidableEq

/-- Lines 39-41: attach the confidence property to a non-null result whose
market value is truthy (very-high with a certificate number, high without). -/
def mkPriceData (r : MVResult) (inp : SCPInput) : PriceData :=
  ⟨r, if r.marketValue ≠ 0 then
      some (if jsTruthyStr inp.certNumber = true then "very-high" else "high")
    else none⟩

/-- Lines 33-63 of `PriceService.getMarketValue`, after a cache miss (or an
expired entry): consult SportsCardPro when a token is configured, return the
unknown object without caching when the lookup produced nothing, otherwise
cache and return the enriched result.  The boolean records whether the
SportsCardPro lookup was issued. -/
def priceFetch (pT : String → ParsedTitle) (pS : String → String → SCPData)
    (hasToken : Bool) (env : SCPEnv) (cache : List (String × CacheEntry))
    (now : Int) (inp : SCPInput) (key : String) :
    PriceOut × List (String × CacheEntry) × Bool :=
  if hasToken = true then
    match (scpGetMarketValue pT pS inp env).1 with
    | none => (PriceOut.unknown, cache, true)
    | some r =>
      let d := mkPriceData r inp
      (PriceOut.data d, mapSet cache key ⟨d, now⟩, true)
  else (PriceOut.unknown, cache, false)

/-- The complete `PriceService.getMarketValue` (lines 23-64): serve a fresh
cache entry without any external lookup, otherwise fetch (and possibly
cache) a new resolution. -/
def priceGetMarketValue (pT : String → ParsedTitle) (pS : String → String → SCPData)
    (hasToken : Bool) (env : SCPEnv) (cache : List (String × CacheEntry))
    (now : Int) (inp : SCPInput) :
    PriceOut × List (String × CacheEntry) × Bool :=
  let key := cacheKey inp
  match mapGet cache key with
  | some e =>
    if e.timestamp > now - cacheTTL then (PriceOut.data e.data, cache, false)
    else priceFetch pT pS hasToken env cache now inp key
  | none => priceFetch pT pS hasToken env cache now inp key

/-! ### pricing.js: calculateDealScore (lines 69-99) -/

/-- The listing fields `calculateDealScore` reads.  Prices, ratings and
times are rationals (exact JavaScript-number arithmetic for the values the
claims quantify over); `auctionEndTime` is a nullable epoch-milliseconds
timestamp and `shippingCost` a nullable amount. -/
structure Listing where
  currentPrice : ℚ
  isAuction : Bool
  auctionEndTime : Option ℚ
  bidCount : Int
  sellerRating : ℚ
  sellerFeedbackCount : Int
  shippingCost : Option ℚ

/-- `PriceService.calculateDealScore` (lines 69-99).  `now` is `Date.now()`
in milliseconds.  A null or non-positive market value short-circuits to 0;
otherwise the discount percentage is adjusted by the auction-timing, seller
and shipping rules and clamped to [0, 100] after rounding. -/
def calculateDealScore (listing : Listing) (now : ℚ) (marketValue : Option ℚ) : ℤ :=
  match marketValue with
  | none => 0
  | some mv =>
    if mv ≤ 0 then 0
    else
      let discount := (mv - listing.currentPrice) / mv
      let score1 := discount * 100
      -- boost for auctions ending soon with few bids (lines 78-87)
      let score2 :=
        if listing.isAuction = true ∧ listing.auctionEndTime.isSome = true then
          let hoursLeft := (listing.auctionEndTime.getD 0 - now) / (1000 * 60 * 60)
          let sa := if hoursLeft < 1 ∧ listing.bidCount < 5 then score1 + 10 else score1
          if hoursLeft < 1/4 ∧ listing.bidCount < 3 then sa + 15 else sa
        else score1
      -- boost for trusted sellers (lines 90-91)
      let score3 := if 199/2 ≤ listing.sellerRating then score2 + 5 else score2
      let score4 := if 1000 ≤ listing.sellerFeedbackCount then score3 + 3 else score3
      -- penalty for shipping (lines 94-96): shippingCost && shippingCost > 5
      let score5 :=
        if jsTruthyQ listing.shippingCost = true ∧ 5 < listing.shippingCost.getD 0 then
          score4 - 5
        else score4
      min (max (jsRound score5) 0) 100

/-! ### Concrete instantiations and fixtures used by the theorems below -/

/-- Constant title parser recognizing nothing; used to instantiate the
abstracted `parseTitle` parameter in concrete evaluations. -/
def nullTitleParse : String → ParsedTitle := fun _ => ⟨none, none, none, none, none, false, none⟩

/-- Constant catalog-product parser recognizing nothing. -/
def nullProductParse : String → String → SCPData := fun _ _ => ⟨none, none, none, none, none, false⟩

/-- Replace the listing price, keeping every other field. -/
def withPrice (l : Listing) (p : ℚ) : Listing :=
  ⟨p, l.isAuction, l.auctionEndTime, l.bidCount, l.sellerRating, l.sellerFeedbackCount,
   l.shippingCost⟩

/-- Concrete fixtures for the cache idempotence witness: a short-titled
identity, one matching catalog product priced 12000 pennies at the top
column, and a product parser returning the fields of that product. -/
def c4wInput : SCPInput :=
  ⟨some "x", some "2024", some "prizm", some "PSA 10", some "130", none, none, none, none⟩

def c4wProduct : RawProduct :=
  ⟨some "lebron james #130", some "2024 panini prizm", none, some 12000, none, none, some 100⟩

def c4wEnv : SCPEnv := ⟨false, none, fun _ => some [c4wProduct]⟩

def c4wParse : String → String → SCPData :=
  fun _ _ => ⟨some "2024", some "prizm", none, some "130", none, false⟩

def c4wRes : MVResult := ⟨((12000 : ℤ) : ℚ) / 100, "manual-only-price", "sportscardpro"⟩

/-! ### Helper lemmas about the parallel matcher -/

/-- No simple color name is a proper suffix of another simple color name:
the suffix branches of the matcher therefore never fire for two colors. -/
lemma colors_suffix_eq : ∀ x ∈ simpleColors, ∀ y ∈ simpleColors,
    strEndsWith y x = true → y = x := by decide

lemma contains_mem (l : List String) (a : String) (h : l.contains a = true) : a ∈ l := by
  simpa using h

/-- The core matcher is symmetric on arbitrary normalized names. -/
lemma coreParallelMatch_symm (sN cN : String) :
    coreParallelMatch sN cN = coreParallelMatch cN sN := by
  unfold coreParallelMatch
  by_cases h1 : sN = "" <;> by_cases h2 : cN = ""
  · simp [h1, h2]
  · simp [h1, h2]
  · simp [h1, h2]
  · by_cases h3 : sN = cN
    · simp [h3]
    · have h3' : ¬(cN = sN) := fun h => h3 h.symm
      rw [if_neg ((fun h => h1 h.1) : ¬(sN = "" ∧ cN = "")),
        if_neg ((fun h => h.elim h1 h2) : ¬(sN = "" ∨ cN = "")), if_neg h3,
        if_neg ((fun h => h2 h.1) : ¬(cN = "" ∧ sN = "")),
        if_neg ((fun h => h.elim h2 h1) : ¬(cN = "" ∨ sN = "")), if_neg h3']
      by_cases h4 : simpleColors.contains sN = true ∧ strEndsWith cN sN = true
      · have hcN : ¬(simpleColors.contains cN = true) := fun hc =>
          absurd (colors_suffix_eq sN (contains_mem _ _ h4.1) cN
            (contains_mem _ _ hc) h4.2) h3'
        rw [if_pos h4, if_neg ((fun hh => hcN hh.1) :
          ¬(simpleColors.contains cN = true ∧ strEndsWith sN cN = true)), if_pos h4]
      · by_cases h5 : simpleColors.contains cN = true ∧ strEndsWith sN cN = true
        · rw [if_neg h4, if_pos h5, if_pos h5]
        · rw [if_neg h4, if_neg h5, if_neg h5, if_neg h4]

/-! ### Claim C1 -/

/-- Claim C1, counterexample.  The claim asserts that the candidate
matcher normalizes parallels only by lowercasing and trimming and that a
listing parallel of "orange" never matches a catalog parallel of
"orange prizm"; in the code, `normalizeParallel` also strips a trailing
" prizm", so this pair does match. -/
theorem parallelMatch_orange_prizm_cex :
    parallelMatch (some "orange") (some "orange prizm") = true := by decide

/-- Claim C1, amended.  Parallel normalization lowercases, strips a
trailing " prizm" or " refractor" suffix, and trims; consequently "orange"
and "orange prizm" are the same parallel identity to the matcher, in either
argument order. -/
theorem parallelMatch_orange_prizm_amended :
    normalizeParallel (some "orange prizm") = "orange"
    ∧ normalizeParallel (some "Blue Refractor") = "blue"
    ∧ parallelMatch (some "orange") (some "orange prizm") = true
    ∧ parallelMatch (some "orange prizm") (some "orange") = true :=
  ⟨by decide, by decide, by decide, by decide⟩

/-! ### Claim C8 -/

/-- Claim C8: the parallel match predicate is symmetric for all inputs;
two null parallels (base card against base card) match; a null parallel
never matches an actual parallel such as "gold" (an actual parallel being
one whose normalized name is nonempty). -/
theorem parallelMatch_symm_and_base :
    (∀ a b : Option String, parallelMatch a b = parallelMatch b a)
    ∧ parallelMatch none none = true
    ∧ parallelMatch none (some "gold") = false
    ∧ parallelMatch (some "gold") none = false
    ∧ (∀ p : String, normalizeParallel (some p) ≠ "" →
        parallelMatch none (some p) = false ∧ parallelMatch (some p) none = false) := by
  refine ⟨fun a b => coreParallelMatch_symm _ _, by decide, by decide, by decide, ?_⟩
  intro p hp
  have hn : normalizeParallel none = "" := rfl
  constructor
  · show coreParallelMatch (normalizeParallel none) (normalizeParallel (some p)) = false
    unfold coreParallelMatch
    rw [hn, if_neg (fun h => hp h.2), if_pos (Or.inl rfl)]
  · show coreParallelMatch (normalizeParallel (some p)) (normalizeParallel none) = false
    unfold coreParallelMatch
    rw [hn, if_neg (fun h => hp h.1), if_pos (Or.inr rfl)]

/-- Claim C8, witness: the quantified conjunct applied at the concrete
parallel "gold". -/
theorem parallelMatch_symm_and_base_witness :
    parallelMatch none (some "gold") = false ∧ parallelMatch (some "gold") none = false :=
  parallelMatch_symm_and_base.2.2.2.2 "gold" (by decide)

/-! ### Claim C9 -/

/-- Claim C9: a candidate matches on year exactly when both the search year
and the candidate year parse as integers (base 10) and their absolute
difference is at most one; a year that fails to parse on either side never
matches. -/
theorem yearMatch_iff_parse_within_one :
    ∀ sy cy : Option String, yearMatchB sy cy = true ↔
      ∃ a b : ℤ, parseIntO sy = some a ∧ parseIntO cy = some b ∧ |a - b| ≤ 1 := by
  intro sy cy
  cases ha : parseIntO sy <;> cases hb : parseIntO cy <;>
    simp [yearMatchB, ha, hb, jsSubO, jsAbsO, jsLeO]

/-- Claim C9, witness: concrete instances of the characterization, with the
season-spanning tolerance visible ("2019" matches "2020" but not "2021",
and the malformed year "19xy" parses to nothing on the candidate side). -/
theorem yearMatch_iff_parse_within_one_witness :
    yearMatchB (some "2019") (some "2020") = true
    ∧ yearMatchB (some "2019") (some "2021") = false
    ∧ yearMatchB (some "2019") (some "xy19") = false := by
  refine ⟨?_, ?_, ?_⟩
  · exact (yearMatch_iff_parse_within_one (some "2019") (some "2020")).mpr
      ⟨2019, 2020, by decide, by decide, by decide⟩
  · have h := yearMatch_iff_parse_within_one (some "2019") (some "2021")
    by_cases hb : yearMatchB (some "2019") (some "2021") = true
    · obtain ⟨a, b, ha, hbb, hle⟩ := h.mp hb
      rw [show parseIntO (some "2019") = some 2019 from by decide] at ha
      rw [show parseIntO (some "2021") = some 2021 from by decide] at hbb
      cases ha; cases hbb; exact absurd hle (by decide)
    · exact Bool.not_eq_true _ |>.mp hb
  · have h := yearMatch_iff_parse_within_one (some "2019") (some "xy19")
    by_cases hb : yearMatchB (some "2019") (some "xy19") = true
    · obtain ⟨a, b, ha, hbb, hle⟩ := h.mp hb
      rw [show parseIntO (some "xy19") = none from by decide] at hbb
      cases hbb
    · exact Bool.not_eq_true _ |>.mp hb

/-! ### Claim C5 -/

/-- Claim C5, counterexample.  The claim asserts that an insert line
present on either side must match exactly, so that a candidate whose
catalog entry carries an insert line the search side lacks does not match.
In the code the insert check is `!searchInsertSet || ...`: with no insert
line on the search side the candidate below matches even though its catalog
entry carries the insert line "splash". -/
theorem insertMatch_one_sided_cex :
    candidateMatch "2024" "prizm" "130" none false none
      ⟨some "2024", some "prizm", some "splash", some "130", none, false⟩ = true := by
  decide

/-- Claim C5, amended.  The autograph flag must agree exactly on both
sides, and an insert line specified on the SEARCH side must match the
catalog side exactly (case-insensitively); either mismatch disqualifies the
candidate.  But when the search side specifies no insert line the check is
vacuous, so a candidate whose catalog entry carries an insert line the
search side lacks still matches when every other field matches. -/
theorem autoInsert_match_amended :
    (∀ (sYear sSet sNumber : String) (sParallel : Option String) (sIsAuto : Bool)
        (sInsert : Option String) (c : SCPData), sIsAuto ≠ c.isAuto →
        candidateMatch sYear sSet sNumber sParallel sIsAuto sInsert c = false)
    ∧ (∀ (sYear sSet sNumber : String) (sParallel : Option String) (sIsAuto : Bool)
        (ins : String) (c : SCPData), ¬(ins = "") →
        lowerStr ins ≠ lowerStr (jsOrEmpty c.insertSet) →
        candidateMatch sYear sSet sNumber sParallel sIsAuto (some ins) c = false)
    ∧ candidateMatch "2024" "prizm" "130" none false none
        ⟨some "2024", some "prizm", some "splash", some "130", none, false⟩ = true := by
  refine ⟨?_, ?_, by decide⟩
  · intro sYear sSet sNumber sParallel sIsAuto sInsert c h
    have hb : (sIsAuto == c.isAuto) = false := by simp [h]
    simp [candidateMatch, hb]
  · intro sYear sSet sNumber sParallel sIsAuto ins c hne hmm
    have hb : (lowerStr ins == lowerStr (jsOrEmpty c.insertSet)) = false := by simp [hmm]
    simp [candidateMatch, insertMatchB, hne, hb]

/-- Claim C5, witness: the two disqualification conjuncts applied at
concrete candidates (an autograph mismatch, then an insert-line mismatch on
the search side). -/
theorem autoInsert_match_amended_witness :
    candidateMatch "2024" "prizm" "130" none true none
      ⟨some "2024", some "prizm", none, some "130", none, false⟩ = false
    ∧ candidateMatch "2024" "prizm" "130" none false (some "splash")
      ⟨some "2024", some "prizm", some "rainmakers", some "130", none, false⟩ = false :=
  ⟨autoInsert_match_amended.1 "2024" "prizm" "130" none true none
      ⟨some "2024", some "prizm", none, some "130", none, false⟩ (by decide),
   autoInsert_match_amended.2.1 "2024" "prizm" "130" none false "splash"
      ⟨some "2024", some "prizm", some "rainmakers", some "130", none, false⟩
      (by decide) (by decide)⟩

/-! ### Claim C3 -/

/-- A nonempty search pattern never occurs in the empty string, so a grade
satisfying one of the inclusion tests is automatically nonempty. -/
lemma grade_nonempty_of_includes (g pat : String) (hpat : ¬(pat = ""))
    (h : strIncludes (upperStr g) pat = true) : ¬(g = "") := by
  intro hg
  subst hg
  rw [show upperStr "" = "" from rfl] at h
  unfold strIncludes charsIncludes at h
  rw [List.isEmpty_iff] at h
  exact hpat (congrArg String.mk h)

/-- Fallback behavior of the final price computation: whenever the selected
column is falsy, the outcome is determined by the loose column alone. -/
lemma scpPriceOf_falsy_fallback (g : Option String) (p : RawProduct)
    (hf : jsTruthyInt (gradePriceSelect g p).1 = false) :
    scpPriceOf g p = (match p.loosePrice with
      | none => none
      | some v => if v ≤ 0 then none else some (v, "loose-price")) := by
  simp only [scpPriceOf]
  rw [if_neg (by rw [hf]; exact Bool.false_ne_true)]

/-- The selected column of `gradePriceSelect` is always one of: nothing,
the graded column, the top column (manual-only falling back to bgs-10), or
the entry-graded column. -/
lemma gradePriceSelect_cases (g : Option String) (p : RawProduct) :
    (gradePriceSelect g p).1 = none ∨ (gradePriceSelect g p).1 = p.gradedPrice ∨
    (gradePriceSelect g p).1 = jsOrInt p.manualOnlyPrice p.bgs10Price ∨
    (gradePriceSelect g p).1 = p.newPrice := by
  unfold gradePriceSelect
  cases g with
  | none => exact Or.inl rfl
  | some s =>
    dsimp only
    split_ifs <;> simp

/-- Claim C3: the grade to price-column selection of the resolver.  A grade
containing PSA/BGS 9 (hence also 9.5) selects the graded (mid) column; a
grade containing PSA/BGS 10, or GEM together with 10, selects the top
column (the manual-only price, falling back to the bgs-10 price), unless
the 9-family already matched; PSA/BGS 8 selects the entry-graded (new)
column; any other or missing grade selects no column; a falsy price at the
selected column falls back to the ungraded (loose) column; when no column
holds a positive price the outcome is the no-price-data failure (`none`),
and any returned price is positive, never synthesized. -/
theorem gradePrice_selection :
    (∀ (g : String) (p : RawProduct),
        (strIncludes (upperStr g) "PSA 9" = true ∨ strIncludes (upperStr g) "BGS 9" = true ∨
         strIncludes (upperStr g) "BGS 9.5" = true) →
        gradePriceSelect (some g) p = (p.gradedPrice, "graded-price"))
    ∧ (∀ (g : String) (p : RawProduct),
        ¬(strIncludes (upperStr g) "PSA 9" = true ∨ strIncludes (upperStr g) "BGS 9" = true ∨
          strIncludes (upperStr g) "BGS 9.5" = true) →
        (strIncludes (upperStr g) "PSA 10" = true ∨ strIncludes (upperStr g) "BGS 10" = true ∨
         (strIncludes (upperStr g) "GEM" = true ∧ strIncludes (upperStr g) "10" = true)) →
        gradePriceSelect (some g) p = (jsOrInt p.manualOnlyPrice p.bgs10Price, "manual-only-price"))
    ∧ (∀ (g : String) (p : RawProduct),
        ¬(strIncludes (upperStr g) "PSA 9" = true ∨ strIncludes (upperStr g) "BGS 9" = true ∨
          strIncludes (upperStr g) "BGS 9.5" = true) →
        ¬(strIncludes (upperStr g) "PSA 10" = true ∨ strIncludes (upperStr g) "BGS 10" = true ∨
          (strIncludes (upperStr g) "GEM" = true ∧ strIncludes (upperStr g) "10" = true)) →
        (strIncludes (upperStr g) "PSA 8" = true ∨ strIncludes (upperStr g) "BGS 8" = true) →
        gradePriceSelect (some g) p = (p.newPrice, "new-price"))
    ∧ (∀ (g : String) (p : RawProduct),
        ¬(strIncludes (upperStr g) "PSA 9" = true ∨ strIncludes (upperStr g) "BGS 9" = true ∨
          strIncludes (upperStr g) "BGS 9.5" = true) →
        ¬(strIncludes (upperStr g) "PSA 10" = true ∨ strIncludes (upperStr g) "BGS 10" = true ∨
          (strIncludes (upperStr g) "GEM" = true ∧ strIncludes (upperStr g) "10" = true)) →
        ¬(strIncludes (upperStr g) "PSA 8" = true ∨ strIncludes (upperStr g) "BGS 8" = true) →
        gradePriceSelect (some g) p = (none, "loose-price"))
    ∧ (∀ p : RawProduct, gradePriceSelect none p = (none, "loose-price"))
    ∧ (∀ (g : Option String) (p : RawProduct),
        jsTruthyInt (gradePriceSelect g p).1 = false →
        scpPriceOf g p = (match p.loosePrice with
          | none => none
          | some v => if v ≤ 0 then none else some (v, "loose-price")))
    ∧ (∀ (g : Option String) (p : RawProduct),
        (∀ v : ℤ, p.gradedPrice = some v → v ≤ 0) →
        (∀ v : ℤ, p.manualOnlyPrice = some v → v ≤ 0) →
        (∀ v : ℤ, p.bgs10Price = some v → v ≤ 0) →
        (∀ v : ℤ, p.newPrice = some v → v ≤ 0) →
        (∀ v : ℤ, p.loosePrice = some v → v ≤ 0) →
        scpPriceOf g p = none)
    ∧ (∀ (g : Option String) (p : RawProduct) (v : ℤ) (k : String),
        scpPriceOf g p = some (v, k) → 0 < v) := by
  refine ⟨?_, ?_, ?_, ?_, fun p => rfl, scpPriceOf_falsy_fallback, ?_, ?_⟩
  · intro g p h9
    have hg : ¬(g = "") := by
      rcases h9 with h | h | h
      · exact grade_nonempty_of_includes g "PSA 9" (by decide) h
      · exact grade_nonempty_of_includes g "BGS 9" (by decide) h
      · exact grade_nonempty_of_includes g "BGS 9.5" (by decide) h
    simp only [gradePriceSelect]
    rw [if_neg hg, if_pos h9]
  · intro g p h9 h10
    have hg : ¬(g = "") := by
      rcases h10 with h | h | h
      · exact grade_nonempty_of_includes g "PSA 10" (by decide) h
      · exact grade_nonempty_of_includes g "BGS 10" (by decide) h
      · exact grade_nonempty_of_includes g "GEM" (by decide) h.1
    simp only [gradePriceSelect]
    rw [if_neg hg, if_neg h9, if_pos h10]
  · intro g p h9 h10 h8
    have hg : ¬(g = "") := by
      rcases h8 with h | h
      · exact grade_nonempty_of_includes g "PSA 8" (by decide) h
      · exact grade_nonempty_of_includes g "BGS 8" (by decide) h
    simp only [gradePriceSelect]
    rw [if_neg hg, if_neg h9, if_neg h10, if_pos h8]
  · intro g p h9 h10 h8
    by_cases hg : g = ""
    · subst hg
      rfl
    · simp only [gradePriceSelect]
      rw [if_neg hg, if_neg h9, if_neg h10, if_neg h8]
  · intro g p hgr hman hbgs hnew hlo
    by_cases ht : jsTruthyInt (gradePriceSelect g p).1 = true
    · simp only [scpPriceOf]
      rw [if_pos ht]
      rcases hv : (gradePriceSelect g p).1 with _ | v
      · exact absurd (hv ▸ ht) (by decide)
      · have hvle : v ≤ 0 := by
          rcases gradePriceSelect_cases g p with hc | hc | hc | hc
          · rw [hv] at hc; cases hc
          · exact hgr v (hc.symm.trans hv)
          · rw [hv] at hc
            unfold jsOrInt at hc
            by_cases hm : jsTruthyInt p.manualOnlyPrice = true
            · rw [if_pos hm] at hc; exact hman v hc.symm
            · rw [if_neg hm] at hc; exact hbgs v hc.symm
          · exact hnew v (hc.symm.trans hv)
        show (if v ≤ 0 then none else some (v, (gradePriceSelect g p).2)) = none
        rw [if_pos hvle]
    · have hf : jsTruthyInt (gradePriceSelect g p).1 = false :=
        Bool.not_eq_true _ |>.mp ht
      rw [scpPriceOf_falsy_fallback g p hf]
      rcases hl : p.loosePrice with _ | w
      · rfl
      · show (if w ≤ 0 then none else some (w, "loose-price")) = none
        rw [if_pos (hlo w hl)]
  · intro g p v k h
    by_cases ht : jsTruthyInt (gradePriceSelect g p).1 = true
    · simp only [scpPriceOf] at h
      rw [if_pos ht] at h
      rcases hv : (gradePriceSelect g p).1 with _ | w
      · rw [hv] at h
        exact absurd h (by simp)
      · rw [hv] at h
        replace h : (if w ≤ 0 then none else some (w, (gradePriceSelect g p).2))
            = some (v, k) := h
        by_cases hw : w ≤ 0
        · rw [if_pos hw] at h
          exact absurd h (by simp)
        · rw [if_neg hw] at h
          simp only [Option.some.injEq, Prod.mk.injEq] at h
          obtain ⟨h1, h2⟩ := h
          omega
    · have hf : jsTruthyInt (gradePriceSelect g p).1 = false :=
        Bool.not_eq_true _ |>.mp ht
      rw [scpPriceOf_falsy_fallback g p hf] at h
      rcases hl : p.loosePrice with _ | w
      · rw [hl] at h
        exact absurd h (by simp)
      · rw [hl] at h
        replace h : (if w ≤ 0 then none else some (w, "loose-price")) = some (v, k) := h
        by_cases hw : w ≤ 0
        · rw [if_pos hw] at h
          exact absurd h (by simp)
        · rw [if_neg hw] at h
          simp only [Option.some.injEq, Prod.mk.injEq] at h
          obtain ⟨h1, h2⟩ := h
          omega

/-- Claim C3, witness: the selection rules applied at concrete grades and
products, covering every branch: PSA 9 takes the graded column, BGS 10 the
top column, PSA 8 the entry column, an unmapped grade and a falsy selected
column fall back to loose, an all-nonpositive product fails with no price
data, and a successful lookup returns a positive price. -/
theorem gradePrice_selection_witness :
    gradePriceSelect (some "PSA 9") ⟨none, none, some 700, some 12000, some 9000, some 300, some 100⟩
      = (some 700, "graded-price")
    ∧ gradePriceSelect (some "BGS 10") ⟨none, none, some 700, some 12000, some 9000, some 300, some 100⟩
      = (some 12000, "manual-only-price")
    ∧ gradePriceSelect (some "PSA 8") ⟨none, none, some 700, some 12000, some 9000, some 300, some 100⟩
      = (some 300, "new-price")
    ∧ gradePriceSelect (some "SGC 10") ⟨none, none, some 700, some 12000, some 9000, some 300, some 100⟩
      = (none, "loose-price")
    ∧ gradePriceSelect none ⟨none, none, some 700, some 12000, some 9000, some 300, some 100⟩
      = (none, "loose-price")
    ∧ scpPriceOf (some "PSA 9") ⟨none, none, none, none, none, none, some 100⟩
      = some (100, "loose-price")
    ∧ scpPriceOf (some "PSA 9") ⟨none, none, some 0, none, some (-5), none, some 0⟩ = none
    ∧ (0 : ℤ) < 12000 :=
  ⟨gradePrice_selection.1 "PSA 9" _ (Or.inl (by decide)),
   gradePrice_selection.2.1 "BGS 10" _ (by decide) (Or.inr (Or.inl (by decide))),
   gradePrice_selection.2.2.1 "PSA 8" _ (by decide) (by decide) (Or.inl (by decide)),
   gradePrice_selection.2.2.2.1 "SGC 10" _ (by decide) (by decide) (by decide),
   gradePrice_selection.2.2.2.2.1 _,
   gradePrice_selection.2.2.2.2.2.1 (some "PSA 9") _ (by decide),
   gradePrice_selection.2.2.2.2.2.2.1 (some "PSA 9") _
     (by rintro v h; cases h; decide) (by rintro v h; cases h)
     (by rintro v h; cases h; decide) (by rintro v h; cases h)
     (by rintro v h; cases h; decide),
   gradePrice_selection.2.2.2.2.2.2.2 (some "PSA 10")
     ⟨none, none, some 700, some 12000, some 9000, some 300, some 100⟩ 12000
     "manual-only-price" (by decide)⟩

/-! ### Claim C2 -/

/-- Claim C2, counterexample.  The claim asserts that an identity missing
the year (or set, or card number) is rejected without any external call.
In the code the PSA certificate lookup runs BEFORE the required-field
checks: for an identity with a certificate number but no year, the
certificate authority is called (second component `true`) even though the
resolver then returns the null skip result without searching. -/
theorem psaCall_before_checks_cex :
    scpGetMarketValue nullTitleParse nullProductParse
      ⟨none, none, some "prizm", none, some "130", none, none, none, some "12345678"⟩
      ⟨true, none, fun _ => some []⟩ = (none, true, false) := by
  decide

/-- Claim C2, amended.  Whenever the card number, year or set is still
null or empty at the point of the required-field checks (that is, after the
certificate lookup and long-title parsing have had the chance to fill
fields), the resolver returns the null skip result and never calls the
catalog search API; the certificate-authority lookup, however, is not
guarded by these checks: it is issued exactly when a certificate number and
PSA credentials are present.  This holds for every title parser `pT` and
product parser `pS`, in particular for the concrete ones of the source. -/
theorem insufficientIdentity_skips_search :
    ∀ (pT : String → ParsedTitle) (pS : String → String → SCPData)
      (inp : SCPInput) (env : SCPEnv),
      (jsTruthyStr (scpEnrich pT inp env).number = false ∨
       jsTruthyStr (scpEnrich pT inp env).year = false ∨
       jsTruthyStr (scpEnrich pT inp env).set = false) →
      scpGetMarketValue pT pS inp env =
        (none, jsTruthyStr inp.certNumber && env.hasPSACredentials, false) := by
  intro pT pS inp env h
  rcases h with h | h | h
  · simp [scpGetMarketValue, h]
  · by_cases hn : jsTruthyStr (scpEnrich pT inp env).number = false
    · simp [scpGetMarketValue, hn]
    · have hn' : jsTruthyStr (scpEnrich pT inp env).number = true := by
        revert hn
        cases jsTruthyStr (scpEnrich pT inp env).number <;> simp
      simp [scpGetMarketValue, hn', h]
  · by_cases hn : jsTruthyStr (scpEnrich pT inp env).number = false
    · simp [scpGetMarketValue, hn]
    · have hn' : jsTruthyStr (scpEnrich pT inp env).number = true := by
        revert hn
        cases jsTruthyStr (scpEnrich pT inp env).number <;> simp
      by_cases hy : jsTruthyStr (scpEnrich pT inp env).year = false
      · simp [scpGetMarketValue, hn', hy]
      · have hy' : jsTruthyStr (scpEnrich pT inp env).year = true := by
          revert hy
          cases jsTruthyStr (scpEnrich pT inp env).year <;> simp
        simp [scpGetMarketValue, hn', hy', h]

/-- Claim C2, witness: a concrete identity with a certificate number but no
card number is skipped with no search call, while the certificate authority
was consulted. -/
theorem insufficientIdentity_skips_search_witness :
    scpGetMarketValue nullTitleParse nullProductParse
      ⟨none, some "2024", some "prizm", none, none, none, none, none, some "12345678"⟩
      ⟨true, none, fun _ => some []⟩ = (none, true, false) :=
  insufficientIdentity_skips_search nullTitleParse nullProductParse
    ⟨none, some "2024", some "prizm", none, none, none, none, none, some "12345678"⟩
    ⟨true, none, fun _ => some []⟩ (Or.inl (by decide))

/-! ### Helper lemmas for the deal score -/

lemma jsRound_nonpos (x : ℚ) (h : x ≤ 0) : jsRound x ≤ 0 := by
  unfold jsRound
  calc ⌊x + 1/2⌋ ≤ ⌊(1/2 : ℚ)⌋ := Int.floor_le_floor (by linarith)
    _ = 0 := by norm_num

lemma jsRound_mono (x y : ℚ) (h : x ≤ y) : jsRound x ≤ jsRound y :=
  Int.floor_le_floor (by linarith)

lemma clamp_eq_zero (r : ℤ) (h : r ≤ 0) : min (max r 0) 100 = 0 := by omega

lemma clamp_mono (a b : ℤ) (h : a ≤ b) : min (max a 0) 100 ≤ min (max b 0) 100 := by omega

/-! ### Claim C6 -/

/-- Claim C6: the deal score is always an integer in [0, 100] (even with
every bonus stacked, by the final clamp), and a null or non-positive market
value yields exactly 0 with no adjustments applied. -/
theorem dealScore_bounds :
    (∀ (l : Listing) (now : ℚ) (mv : Option ℚ),
        0 ≤ calculateDealScore l now mv ∧ calculateDealScore l now mv ≤ 100)
    ∧ (∀ (l : Listing) (now : ℚ), calculateDealScore l now none = 0)
    ∧ (∀ (l : Listing) (now : ℚ) (q : ℚ), q ≤ 0 → calculateDealScore l now (some q) = 0) := by
  refine ⟨?_, fun l now => rfl, ?_⟩
  · intro l now mv
    cases mv with
    | none =>
      constructor
      · exact le_refl 0
      · show (0 : ℤ) ≤ 100
        norm_num
    | some q =>
      by_cases hq : q ≤ 0
      · simp only [calculateDealScore, if_pos hq]
        exact ⟨le_refl 0, by norm_num⟩
      · simp only [calculateDealScore, if_neg hq]
        constructor
        · exact le_min (le_max_right _ 0) (by norm_num)
        · exact min_le_right _ 100
  · intro l now q hq
    simp only [calculateDealScore, if_pos hq]

/-- Claim C6, witness: the bounds at a fully stacked-bonus listing
(price 1 against value 1000, auction with zero hours left and 2 bids,
seller at 99.8 percent with 2000 feedback), the null value case, and a
non-positive value case; the stacked case concretely clamps to 100. -/
theorem dealScore_bounds_witness :
    (0 ≤ calculateDealScore ⟨1, true, some 0, 2, 998/10, 2000, none⟩ 0 (some 1000)
      ∧ calculateDealScore ⟨1, true, some 0, 2, 998/10, 2000, none⟩ 0 (some 1000) ≤ 100)
    ∧ calculateDealScore ⟨1, true, some 0, 2, 998/10, 2000, none⟩ 0 none = 0
    ∧ calculateDealScore ⟨1, true, some 0, 2, 998/10, 2000, none⟩ 0 (some (-1)) = 0
    ∧ calculateDealScore ⟨1, true, some 0, 2, 998/10, 2000, none⟩ 0 (some 1000) = 100 := by
  refine ⟨dealScore_bounds.1 _ 0 (some 1000), dealScore_bounds.2.1 _ 0,
    dealScore_bounds.2.2 _ 0 (-1) (by norm_num), ?_⟩
  norm_num [calculateDealScore, jsRound, jsTruthyQ]

/-! ### Claim C7 -/

set_option maxHeartbeats 2000000 in
/-- Claim C7: for fixed market value and fixed auction, seller and shipping
inputs, the deal score is monotonically non-increasing in the listing
price; and when the listing price is at least the market value and no
timing or seller bonus applies, the score is exactly 0. -/
theorem dealScore_monotone_and_zero :
    (∀ (l : Listing) (now : ℚ) (mv : Option ℚ) (p1 p2 : ℚ), p1 ≤ p2 →
        calculateDealScore (withPrice l p2) now mv ≤ calculateDealScore (withPrice l p1) now mv)
    ∧ (∀ (l : Listing) (now : ℚ) (q : ℚ),
        (l.isAuction = false ∨ l.auctionEndTime = none) →
        l.sellerRating < 199/2 → l.sellerFeedbackCount < 1000 →
        q ≤ l.currentPrice →
        calculateDealScore l now (some q) = 0) := by
  constructor
  · intro l now mv p1 p2 hp
    cases mv with
    | none => exact le_refl 0
    | some q =>
      by_cases hq : q ≤ 0
      · simp only [calculateDealScore, if_pos hq]
        exact le_refl 0
      · have hq' : 0 < q := lt_of_not_ge hq
        have h1 : (q - p2) / q ≤ (q - p1) / q :=
          (div_le_div_iff_of_pos_right hq').mpr (by linarith)
        simp only [calculateDealScore, if_neg hq, withPrice]
        split_ifs <;>
          exact clamp_mono _ _ (jsRound_mono _ _ (by linarith only [h1]))
  · intro l now q hno hrat hfb hge
    simp only [calculateDealScore]
    by_cases hq : q ≤ 0
    · rw [if_pos hq]
    · rw [if_neg hq]
      have hq' : 0 < q := lt_of_not_ge hq
      have hd : (q - l.currentPrice) / q ≤ 0 :=
        div_nonpos_of_nonpos_of_nonneg (by linarith) (by linarith)
      have hA : ¬(l.isAuction = true ∧ l.auctionEndTime.isSome = true) := by
        rintro ⟨h1, h2⟩
        rcases hno with h | h
        · rw [h] at h1
          exact Bool.false_ne_true h1
        · rw [h] at h2
          exact absurd h2 (by simp)
      rw [if_neg hA, if_neg (not_le.mpr hrat), if_neg (not_le.mpr hfb)]
      by_cases hs : jsTruthyQ l.shippingCost = true ∧ 5 < l.shippingCost.getD 0
      · rw [if_pos hs]
        exact clamp_eq_zero _ (jsRound_nonpos _ (by linarith))
      · rw [if_neg hs]
        exact clamp_eq_zero _ (jsRound_nonpos _ (by linarith))

/-- Claim C7, witness: monotonicity at prices 10 and 20 against value 100,
and the zero case for a 60-priced listing against a 50 value with no
auction, a modest seller and no bonuses. -/
theorem dealScore_monotone_and_zero_witness :
    calculateDealScore (withPrice ⟨0, false, none, 0, 90, 10, none⟩ 20) 0 (some 100)
      ≤ calculateDealScore (withPrice ⟨0, false, none, 0, 90, 10, none⟩ 10) 0 (some 100)
    ∧ calculateDealScore ⟨60, false, none, 0, 90, 10, none⟩ 0 (some 50) = 0 :=
  ⟨dealScore_monotone_and_zero.1 ⟨0, false, none, 0, 90, 10, none⟩ 0 (some 100) 10 20
      (by norm_num),
   dealScore_monotone_and_zero.2 ⟨60, false, none, 0, 90, 10, none⟩ 0 50
      (Or.inl rfl) (by norm_num) (by norm_num) (by norm_num)⟩

/-! ### Helper lemmas for the resolution cache -/

/-- Reading back the key just written always succeeds. -/
lemma mapGet_mapSet_self (m : List (String × CacheEntry)) (k : String) (v : CacheEntry) :
    mapGet (mapSet m k v) k = some v := by
  induction m with
  | nil => simp [mapSet, mapGet]
  | cons hd tl ih =>
    obtain ⟨k1, v1⟩ := hd
    by_cases hk : k1 = k
    · simp [mapSet, mapGet, hk]
    · simp only [mapSet, if_neg hk, mapGet, ih]

/-- Writing one key never removes any other binding. -/
lemma mapSet_preserves (m : List (String × CacheEntry)) (k k2 : String) (v : CacheEntry)
    (h : (mapGet m k2).isSome = true) : (mapGet (mapSet m k v) k2).isSome = true := by
  induction m with
  | nil => simp [mapGet] at h
  | cons hd tl ih =>
    obtain ⟨k1, v1⟩ := hd
    by_cases hk : k1 = k
    · simp only [mapSet, if_pos hk]
      by_cases hk2 : k = k2
      · simp [mapGet, hk2]
      · simp only [mapGet, if_neg hk2]
        have hk12 : ¬(k1 = k2) := fun hh => hk2 (hk.symm.trans hh)
        simpa [mapGet, if_neg hk12] using h
    · simp only [mapSet, if_neg hk]
      by_cases hk2 : k1 = k2
      · simp [mapGet, hk2]
      · simp only [mapGet, if_neg hk2]
        apply ih
        simpa [mapGet, if_neg hk2] using h

/-- A fresh cache hit returns the cached data without fetching. -/
lemma priceGMV_hit (pT : String → ParsedTitle) (pS : String → String → SCPData)
    (tok : Bool) (env : SCPEnv) (cache : List (String × CacheEntry)) (now : Int)
    (inp : SCPInput) (e : CacheEntry) (h : mapGet cache (cacheKey inp) = some e)
    (ht : e.timestamp > now - cacheTTL) :
    priceGetMarketValue pT pS tok env cache now inp = (PriceOut.data e.data, cache, false) := by
  simp only [priceGetMarketValue]
  rw [h]
  exact if_pos ht

/-- A stale cache entry falls through to the fetch path. -/
lemma priceGMV_stale (pT : String → ParsedTitle) (pS : String → String → SCPData)
    (tok : Bool) (env : SCPEnv) (cache : List (String × CacheEntry)) (now : Int)
    (inp : SCPInput) (e : CacheEntry) (h : mapGet cache (cacheKey inp) = some e)
    (ht : ¬(e.timestamp > now - cacheTTL)) :
    priceGetMarketValue pT pS tok env cache now inp =
      priceFetch pT pS tok env cache now inp (cacheKey inp) := by
  simp only [priceGetMarketValue]
  rw [h]
  exact if_neg ht

/-- A cache miss goes to the fetch path. -/
lemma priceGMV_miss (pT : String → ParsedTitle) (pS : String → String → SCPData)
    (tok : Bool) (env : SCPEnv) (cache : List (String × CacheEntry)) (now : Int)
    (inp : SCPInput) (h : mapGet cache (cacheKey inp) = none) :
    priceGetMarketValue pT pS tok env cache now inp =
      priceFetch pT pS tok env cache now inp (cacheKey inp) := by
  simp only [priceGetMarketValue]
  rw [h]

/-- A successful fetch caches and returns the enriched result. -/
lemma priceFetch_success (pT : String → ParsedTitle) (pS : String → String → SCPData)
    (env : SCPEnv) (cache : List (String × CacheEntry)) (now : Int) (inp : SCPInput)
    (key : String) (r : MVResult) (h : (scpGetMarketValue pT pS inp env).1 = some r) :
    priceFetch pT pS true env cache now inp key =
      (PriceOut.data (mkPriceData r inp),
       mapSet cache key ⟨mkPriceData r inp, now⟩, true) := by
  unfold priceFetch
  rw [if_pos rfl, h]

/-- The fetch path never deletes existing cache bindings. -/
lemma priceFetch_state (pT : String → ParsedTitle) (pS : String → String → SCPData)
    (tok : Bool) (env : SCPEnv) (cache : List (String × CacheEntry)) (now : Int)
    (inp : SCPInput) (key k : String) (h : (mapGet cache k).isSome = true) :
    (mapGet (priceFetch pT pS tok env cache now inp key).2.1 k).isSome = true := by
  unfold priceFetch
  by_cases ht : tok = true
  · rw [if_pos ht]
    cases hr : (scpGetMarketValue pT pS inp env).1 with
    | none => exact h
    | some r => exact mapSet_preserves cache key k ⟨mkPriceData r inp, now⟩ h
  · rw [if_neg ht]
    exact h

/-! ### Claim C4 -/

/-- Claim C4, counterexample.  The claim asserts that failed resolutions
are cached too, so two identical resolutions inside the TTL window issue
exactly one external call.  In the code a null result returns the unknown
object WITHOUT writing the cache (line 50 precedes line 61), so a failing
identity is re-fetched: here the search returns no products, both back-to-
back calls issue the external lookup, the cache stays empty, and the inner
resolver really did call the search API. -/
theorem failed_resolution_not_cached_cex :
    (priceGetMarketValue nullTitleParse nullProductParse true ⟨false, none, fun _ => some []⟩
      [] 0 ⟨some "lebron", some "2024", some "prizm", some "PSA 10", some "130",
        none, none, none, none⟩).2.2 = true
    ∧ (priceGetMarketValue nullTitleParse nullProductParse true ⟨false, none, fun _ => some []⟩
      [] 0 ⟨some "lebron", some "2024", some "prizm", some "PSA 10", some "130",
        none, none, none, none⟩).2.1 = []
    ∧ (priceGetMarketValue nullTitleParse nullProductParse true ⟨false, none, fun _ => some []⟩
      (priceGetMarketValue nullTitleParse nullProductParse true ⟨false, none, fun _ => some []⟩
        [] 0 ⟨some "lebron", some "2024", some "prizm", some "PSA 10", some "130",
          none, none, none, none⟩).2.1
      1 ⟨some "lebron", some "2024", some "prizm", some "PSA 10", some "130",
        none, none, none, none⟩).2.2 = true
    ∧ (scpGetMarketValue nullTitleParse nullProductParse
      ⟨some "lebron", some "2024", some "prizm", some "PSA 10", some "130",
        none, none, none, none⟩ ⟨false, none, fun _ => some []⟩).2.2 = true :=
  ⟨rfl, rfl, rfl, rfl⟩

/-- Claim C4, amended.  Only successful (non-null) resolutions are written
through the cache, keyed by the normalized identity+grade tuple; a failed
resolution is not cached.  When the first resolution for a key succeeds,
a second resolution with the identical key inside the TTL window issues no
further external call and is served from the cache. -/
theorem cache_success_idempotent :
    ∀ (pT : String → ParsedTitle) (pS : String → String → SCPData) (env : SCPEnv)
      (st0 : List (String × CacheEntry)) (t0 t1 : Int) (inp : SCPInput) (r : MVResult),
      mapGet st0 (cacheKey inp) = none →
      (scpGetMarketValue pT pS inp env).1 = some r →
      t0 > t1 - cacheTTL →
      priceGetMarketValue pT pS true env st0 t0 inp =
        (PriceOut.data (mkPriceData r inp),
         mapSet st0 (cacheKey inp) ⟨mkPriceData r inp, t0⟩, true)
      ∧ priceGetMarketValue pT pS true env
          (mapSet st0 (cacheKey inp) ⟨mkPriceData r inp, t0⟩) t1 inp =
        (PriceOut.data (mkPriceData r inp),
         mapSet st0 (cacheKey inp) ⟨mkPriceData r inp, t0⟩, false) := by
  intro pT pS env st0 t0 t1 inp r hmiss hscp httl
  constructor
  · exact (priceGMV_miss pT pS true env st0 t0 inp hmiss).trans
      (priceFetch_success pT pS env st0 t0 inp (cacheKey inp) r hscp)
  · exact priceGMV_hit pT pS true env _ t1 inp ⟨mkPriceData r inp, t0⟩
      (mapGet_mapSet_self st0 (cacheKey inp) ⟨mkPriceData r inp, t0⟩) httl

/-- Claim C4, witness: a successful end-to-end resolution (through
candidate matching and top-column price selection) issues the external
call once; the immediate repeat with the identical key one millisecond
later is served from the cache with no external call. -/
theorem cache_success_idempotent_witness :
    (priceGetMarketValue nullTitleParse c4wParse true c4wEnv [] 0 c4wInput).2.2 = true
    ∧ (priceGetMarketValue nullTitleParse c4wParse true c4wEnv
        (priceGetMarketValue nullTitleParse c4wParse true c4wEnv [] 0 c4wInput).2.1
        1 c4wInput).2.2 = false := by
  obtain ⟨h1, h2⟩ := cache_success_idempotent nullTitleParse c4wParse c4wEnv [] 0 1
    c4wInput c4wRes rfl rfl (by decide)
  constructor
  · rw [h1]
  · rw [h1, h2]

/-! ### Claim C10 -/

/-- Claim C10: the resolution cache never evicts.  One `getMarketValue`
call can only leave the cache unchanged or add/overwrite the binding of
the requested key, so every key present before the call is still present
after it; the set of cache keys is non-decreasing over any sequence of
calls. -/
theorem cache_never_evicts :
    ∀ (pT : String → ParsedTitle) (pS : String → String → SCPData) (tok : Bool)
      (env : SCPEnv) (cache : List (String × CacheEntry)) (now : Int) (inp : SCPInput)
      (k : String),
      (mapGet cache k).isSome = true →
      (mapGet (priceGetMarketValue pT pS tok env cache now inp).2.1 k).isSome = true := by
  intro pT pS tok env cache now inp k h
  cases hc : mapGet cache (cacheKey inp) with
  | none =>
    rw [priceGMV_miss pT pS tok env cache now inp hc]
    exact priceFetch_state pT pS tok env cache now inp (cacheKey inp) k h
  | some e =>
    by_cases ht : e.timestamp > now - cacheTTL
    · rw [priceGMV_hit pT pS tok env cache now inp e hc ht]
      exact h
    · rw [priceGMV_stale pT pS tok env cache now inp e hc ht]
      exact priceFetch_state pT pS tok env cache now inp (cacheKey inp) k h

/-- Claim C10, witness: a cache holding one binding still holds it after a
resolution of a different identity that misses the cache and fetches. -/
theorem cache_never_evicts_witness :
    (mapGet (priceGetMarketValue nullTitleParse c4wParse true c4wEnv
      [("k0", ⟨⟨⟨0, "loose-price", "sportscardpro"⟩, none⟩, 0⟩)] 5 c4wInput).2.1
      "k0").isSome = true :=
  cache_never_evicts nullTitleParse c4wParse true c4wEnv
    [("k0", ⟨⟨⟨0, "loose-price", "sportscardpro"⟩, none⟩, 0⟩)] 5 c4wInput "k0" rfl
